import Mathlib

/-!
Verification of the pkg-config descriptor generator
(`src/build/scons/util/_pkg_config.py`) and the extension packaging
entry point (`src/python/setup.py`) of lwpr-lite.

The Python module renders the fixed template `pc_template` with
`string.Template.substitute` over a mapping built from a SCons
environment and writes the result to a file opened with mode `w`.
The template source text is:

  "\nprefix=${lwpr}\nexec_prefix=${prefix}\nincludedir=${prefix}/include\n
   libdir=${exec_prefix}/lib\n\nName: ${libname}\n
   Description: The Dilithium Dynamic Programming library\n
   Version: 0.0.1\nCflags: ${compile_flags} ${include_paths} -I${includedir}\n
   Libs: ${link_flags} ${lib_paths} -L${libdir} ${libs}\n"

(line breaks in the original are kept as `\n` below; the indentation
above is only for readability of this comment).
-/

namespace LwprLite

/-- A parsed piece of a `string.Template`: either literal text or a
`$\x7bname\x7d` placeholder. `string.Template` parses the template into an
alternating sequence of these; substitution replaces each placeholder by
the mapping entry for its name, in a single pass (inserted values are
never re-scanned). -/
inductive Chunk where
  | lit (s : String)
  | ph (name : String)
deriving DecidableEq, Repr

/-- The parsed form of `pc_template` (the module-level template string of
`_pkg_config.py`), chunk by chunk, literals exactly as they occur between
consecutive placeholders. The template text begins and ends with a line
break because the Python triple-quoted string does. -/
def pc_template : List Chunk :=
  [ .lit "\nprefix=", .ph "lwpr",
    .lit "\nexec_prefix=", .ph "prefix",
    .lit "\nincludedir=", .ph "prefix",
    .lit "/include\nlibdir=", .ph "exec_prefix",
    .lit "/lib\n\nName: ", .ph "libname",
    .lit "\nDescription: The Dilithium Dynamic Programming library\nVersion: 0.0.1\nCflags: ",
    .ph "compile_flags", .lit " ", .ph "include_paths", .lit " -I", .ph "includedir",
    .lit "\nLibs: ", .ph "link_flags", .lit " ", .ph "lib_paths", .lit " -L", .ph "libdir",
    .lit " ", .ph "libs", .lit "\n" ]

/-- The placeholder names occurring in a parsed template. -/
def placeholdersOf (cs : List Chunk) : List String :=
  cs.filterMap fun c => match c with
    | .lit _ => none
    | .ph k => some k

/-- Substitution as `Template.substitute` performs it: replace every placeholder by its mapping
entry; a placeholder absent from the mapping raises `KeyError(name)`,
modelled as `.error name`.  The first unresolvable placeholder (in
template order) is the one reported, as with the regex-driven left-to-right
pass of `string.Template`. -/
def substitute (m : List (String × String)) : List Chunk → Except String String
  | [] => .ok ""
  | .lit s :: cs => (substitute m cs).map (fun t => s ++ t)
  | .ph k :: cs =>
    match m.lookup k with
    | none => .error k
    | some v => (substitute m cs).map (fun t => v ++ t)

/-- Python's `' '.join`, used both for the explicit `' '.join(...)`
calls in `save_pkg_config_descriptor` and for the `str()` conversion that
`Template.substitute` applies to the SCons `CLVar` values stored under
`CCFLAGS` and `LINKFLAGS` (a `CLVar` stringifies as its elements joined
by single spaces). -/
def joinSp : List String → String
  | [] => ""
  | [s] => s
  | s :: rest => s ++ " " ++ joinSp rest

/-- The SCons environment as `save_pkg_config_descriptor` reads it: a
key-value store in which any of the seven keys the function accesses may
be absent (an absent key makes `env[...]` raise `KeyError`).  `pfx`
stands for the key `'prefix'`; the remaining fields carry their Python
key names.  Path- and name-valued keys hold strings; the flag and list
keys hold ordered lists of strings. -/
structure SConsEnv where
  pfx : Option String
  lwpr : Option String
  CCFLAGS : Option (List String)
  CPPPATH : Option (List String)
  LINKFLAGS : Option (List String)
  LIBS : Option (List String)
  LIBPATH : Option (List String)
deriving Repr

/-- Key access `env[k]`: the value when present, else `KeyError(k)`. -/
def need (k : String) : Option α → Except String α
  | none => .error k
  | some v => .ok v

/-- The substitution mapping built inside `save_pkg_config_descriptor`,
entry by entry in the order the Python code assigns them.  Environment
keys are read in the source's order (`prefix`, `lwpr`, `CCFLAGS`,
`CPPPATH`, `LINKFLAGS`, `LIBS`, `LIBPATH`), so the `KeyError` names the
first absent key in that order. -/
def buildMapping (e : SConsEnv) (libname : String) :
    Except String (List (String × String)) := do
  let p ← need "prefix" e.pfx
  let lw ← need "lwpr" e.lwpr
  let cc ← need "CCFLAGS" e.CCFLAGS
  let cpp ← need "CPPPATH" e.CPPPATH
  let lf ← need "LINKFLAGS" e.LINKFLAGS
  let lb ← need "LIBS" e.LIBS
  let lp ← need "LIBPATH" e.LIBPATH
  .ok [ ("prefix", p),
        ("exec_prefix", "${exec_prefix}"),
        ("includedir", "${includedir}"),
        ("libdir", "${libdir}"),
        ("lwpr", lw),
        ("libname", libname),
        ("compile_flags", joinSp cc),
        ("include_paths", joinSp (cpp.map (fun path => "-I" ++ path))),
        ("link_flags", joinSp lf),
        ("libs", joinSp (lb.map (fun name => "-l" ++ name) ++ ["-l" ++ libname])),
        ("lib_paths", joinSp (lp.map (fun path => "-L" ++ path))) ]

/-- The text `save_pkg_config_descriptor` renders (the argument of the
single `outstream.write` call), or the name carried by the `KeyError`
that aborts it. -/
def save_pkg_config_descriptor (e : SConsEnv) (libname : String) :
    Except String String := do
  let m ← buildMapping e libname
  substitute m pc_template

/-- File-state semantics of one call of `save_pkg_config_descriptor`
against a given output path.  `old` is the content of the file at
`filename` before the call (`none`: no such file); the result pairs the
call's outcome with the content afterwards.  The Python function executes
`open(filename, 'w')` before reading any environment key, so the file is
created, and truncated to empty if it existed, in every case; on success
the whole rendered text is then written in one `write` call, and on a
`KeyError` the `with` block closes the still-empty file. -/
def runSave (e : SConsEnv) (libname : String) (_old : Option String) :
    Except String Unit × Option String :=
  match save_pkg_config_descriptor e libname with
  | .ok s => (.ok (), some s)
  | .error k => (.error k, some "")

/-- An environment state carrying all seven keys that
`save_pkg_config_descriptor` reads. -/
structure EnvVals where
  pfx : String
  lwpr : String
  CCFLAGS : List String
  CPPPATH : List String
  LINKFLAGS : List String
  LIBS : List String
  LIBPATH : List String
deriving Repr

/-- The `SConsEnv` holding exactly the values of an `EnvVals`. -/
def toEnv (v : EnvVals) : SConsEnv :=
  { pfx := some v.pfx, lwpr := some v.lwpr, CCFLAGS := some v.CCFLAGS,
    CPPPATH := some v.CPPPATH, LINKFLAGS := some v.LINKFLAGS,
    LIBS := some v.LIBS, LIBPATH := some v.LIBPATH }

/-- The rendered `prefix=` assignment line: the template line
`prefix=$\x7blwpr\x7d`, so its value is the environment's `lwpr` entry. -/
def prefixLine (v : EnvVals) : String := "prefix=" ++ v.lwpr

/-- The rendered `exec_prefix=` assignment line: the template line
`exec_prefix=$\x7bprefix\x7d`, whose placeholder resolves to the
environment's `prefix` entry. -/
def execPrefixLine (v : EnvVals) : String := "exec_prefix=" ++ v.pfx

/-- The rendered `includedir=` assignment line. -/
def includedirLine (v : EnvVals) : String := "includedir=" ++ (v.pfx ++ "/include")

/-- The rendered `libdir=` assignment line: the mapping binds
`exec_prefix` to the literal token `${exec_prefix}`, so this line is the
same for every input. -/
def libdirLine : String := "libdir=${exec_prefix}/lib"

/-- The rendered `Name:` line. -/
def nameLine (libname : String) : String := "Name: " ++ libname

/-- The fixed `Description:` line. -/
def descriptionLine : String := "Description: The Dilithium Dynamic Programming library"

/-- The fixed `Version:` line. -/
def versionLine : String := "Version: 0.0.1"

/-- The rendered `Cflags:` line. -/
def cflagsLine (v : EnvVals) : String :=
  "Cflags: " ++ (joinSp v.CCFLAGS ++ (" " ++
    (joinSp (v.CPPPATH.map (fun path => "-I" ++ path)) ++ " -I${includedir}")))

/-- The rendered `Libs:` line. -/
def libsLine (v : EnvVals) (libname : String) : String :=
  "Libs: " ++ (joinSp v.LINKFLAGS ++ (" " ++
    (joinSp (v.LIBPATH.map (fun path => "-L" ++ path)) ++ (" -L${libdir} " ++
      joinSp (v.LIBS.map (fun name => "-l" ++ name) ++ ["-l" ++ libname])))))

/-- The full rendered descriptor for a complete environment: the eleven
template lines joined by line breaks, with the template's leading and
trailing line break. -/
def descriptorText (v : EnvVals) (libname : String) : String :=
  "\n" ++ (prefixLine v ++ ("\n" ++ (execPrefixLine v ++ ("\n" ++
    (includedirLine v ++ ("\n" ++ (libdirLine ++ ("\n\n" ++
      (nameLine libname ++ ("\n" ++ (descriptionLine ++ ("\n" ++
        (versionLine ++ ("\n" ++ (cflagsLine v ++ ("\n" ++
          (libsLine v libname ++ "\n")))))))))))))))))

/-! Whitespace tokenisation of rendered lines.  The flag lines of a `.pc`
file are read by consumers as sequences of whitespace-separated tokens;
`tokensOf` extracts that sequence. -/

/-- Split a character list at every space, keeping empty runs. -/
def splitSpChars : List Char → List (List Char)
  | [] => [[]]
  | c :: cs =>
    match splitSpChars cs with
    | [] => [[]]
    | t :: ts => if c = ' ' then [] :: t :: ts else (c :: t) :: ts

/-- The maximal nonempty space-free runs of a character list. -/
def tokensOfChars (l : List Char) : List (List Char) :=
  (splitSpChars l).filter (fun t => !t.isEmpty)

/-- The whitespace-separated tokens of a rendered line. -/
def tokensOf (s : String) : List String :=
  (tokensOfChars s.data).map (fun t => String.mk t)

/-! The extension packaging entry point, `src/python/setup.py`. -/

/-- The fields of the `Extension` object that `main` constructs (the
absolute directory parameters `library_dirs`, `runtime_library_dirs` and
`include_dirs` are host-filesystem paths computed from `__file__` and
carry no name information, so they are not modelled). -/
structure ExtensionSpec where
  name : String
  language : String
  sources : List String
  libraries : List String
deriving DecidableEq, Repr

/-- Line `debug_mode = '--debug' in sys.argv` at the top of `main`. -/
def debug_mode (argv : List String) : Bool := argv.contains "--debug"

/-- Line `libname = 'lwpr-debug' if debug_mode else 'lwpr'` in `main`.  This
local variable is not read anywhere else in `setup.py`. -/
def main_libname (argv : List String) : String :=
  if debug_mode argv then "lwpr-debug" else "lwpr"

/-- The `Extension` value `main` passes to `setup`: every name-bearing
field is a fixed literal, independent of the command line (`Extension(
'lwpr', language='c', sources=[path.join('src', 'lwprmodule.c')], ...,
libraries=['lwpr'], ...)`). -/
def main_extension (_argv : List String) : ExtensionSpec :=
  { name := "lwpr", language := "c", sources := ["src/lwprmodule.c"],
    libraries := ["lwpr"] }

/-! Missing-key behaviour. -/

/-- The first key, in the order `save_pkg_config_descriptor` reads them,
that is absent from the environment (`none` when all seven are present).
This is the key named by the `KeyError` the function raises. -/
def firstMissingKey (e : SConsEnv) : Option String :=
  match e.pfx with
  | none => some "prefix"
  | some _ =>
  match e.lwpr with
  | none => some "lwpr"
  | some _ =>
  match e.CCFLAGS with
  | none => some "CCFLAGS"
  | some _ =>
  match e.CPPPATH with
  | none => some "CPPPATH"
  | some _ =>
  match e.LINKFLAGS with
  | none => some "LINKFLAGS"
  | some _ =>
  match e.LIBS with
  | none => some "LIBS"
  | some _ =>
  match e.LIBPATH with
  | none => some "LIBPATH"
  | some _ => none

/-- The environment contains all seven keys the generator reads. -/
def hasAllKeys (e : SConsEnv) : Prop :=
  e.pfx.isSome = true ∧ e.lwpr.isSome = true ∧ e.CCFLAGS.isSome = true ∧
  e.CPPPATH.isSome = true ∧ e.LINKFLAGS.isSome = true ∧
  e.LIBS.isSome = true ∧ e.LIBPATH.isSome = true

instance (e : SConsEnv) : Decidable (hasAllKeys e) := by
  unfold hasAllKeys; infer_instance


/-! Concrete environments used as inputs below. -/

/-- The concrete scenario input of the specification: prefix
`/usr/local`, compile flags `[-O2]`, include search paths
`[/usr/local/include]`, no link flags, library search paths
`[/usr/local/lib]`, linked library names `[m]`.  The scenario does not
fix the internal package root (`lwpr`); it is set to the prefix value. -/
def scenarioEnv : EnvVals :=
  { pfx := "/usr/local", lwpr := "/usr/local", CCFLAGS := ["-O2"],
    CPPPATH := ["/usr/local/include"], LINKFLAGS := [], LIBS := ["m"],
    LIBPATH := ["/usr/local/lib"] }

/-- An environment whose `prefix` and `lwpr` entries differ and whose
flag lists are all nonempty. -/
def envB : EnvVals :=
  { pfx := "/usr/local", lwpr := "/opt/lwpr", CCFLAGS := ["-O2"],
    CPPPATH := ["/usr/local/include"], LINKFLAGS := ["-pthread"],
    LIBS := ["m", "dl"], LIBPATH := ["/usr/local/lib"] }

/-- The scenario environment with the `LINKFLAGS` key (and only it)
absent. -/
def envMissingLink : SConsEnv :=
  { pfx := some "/usr/local", lwpr := some "/usr/local",
    CCFLAGS := some ["-O2"], CPPPATH := some ["/usr/local/include"],
    LINKFLAGS := none, LIBS := some ["m"], LIBPATH := some ["/usr/local/lib"] }

/-- Recognises a library-link token: a string beginning with the two
characters `-l`. -/
def isLinkTok (s : String) : Bool :=
  match s.data with
  | '-' :: 'l' :: _ => true
  | _ => false

/-- Recognises a library-search-path token: a string beginning with the
two characters `-L`. -/
def isPathTok (s : String) : Bool :=
  match s.data with
  | '-' :: 'L' :: _ => true
  | _ => false

/-- On a complete environment, `save_pkg_config_descriptor` succeeds and
renders exactly `descriptorText`. -/
theorem save_toEnv_eq (v : EnvVals) (n : String) :
    save_pkg_config_descriptor (toEnv v) n = .ok (descriptorText v n) := by
  simp only [descriptorText, prefixLine, execPrefixLine, includedirLine, libdirLine,
    nameLine, descriptionLine, versionLine, cflagsLine, libsLine, String.append_assoc]
  rfl

theorem splitSpChars_ne_nil (l : List Char) : splitSpChars l ≠ [] := by
  cases l with
  | nil => simp [splitSpChars]
  | cons c cs =>
    simp only [splitSpChars]
    cases h : splitSpChars cs with
    | nil => simp
    | cons t ts =>
      by_cases hc : c = ' ' <;> simp [hc]

theorem splitSpChars_space (l : List Char) :
    splitSpChars (' ' :: l) = [] :: splitSpChars l := by
  simp only [splitSpChars]
  cases h : splitSpChars l with
  | nil => exact absurd h (splitSpChars_ne_nil l)
  | cons t ts => simp

theorem splitSpChars_cons_ne {c : Char} (hc : c ≠ ' ') (l : List Char)
    {t : List Char} {ts : List (List Char)} (h : splitSpChars l = t :: ts) :
    splitSpChars (c :: l) = (c :: t) :: ts := by
  simp [splitSpChars, h, hc]

theorem splitSpChars_append_nospace :
    ∀ (w : List Char), ' ' ∉ w → ∀ {l t ts}, splitSpChars l = t :: ts →
      splitSpChars (w ++ l) = (w ++ t) :: ts := by
  intro w
  induction w with
  | nil => intro _ l t ts h; simpa using h
  | cons c w ih =>
    intro hw l t ts h
    have hc : c ≠ ' ' := by
      rintro rfl; exact hw (List.mem_cons_self _ _)
    have hw' : ' ' ∉ w := fun hm => hw (List.mem_cons_of_mem c hm)
    have := splitSpChars_cons_ne hc (w ++ l) (ih hw' h)
    simpa using this

theorem tokensOfChars_nil : tokensOfChars [] = [] := rfl

theorem tokensOfChars_space (l : List Char) :
    tokensOfChars (' ' :: l) = tokensOfChars l := by
  simp [tokensOfChars, splitSpChars_space]

theorem tokensOfChars_token_space (w : List Char) (hw : w ≠ []) (hsp : ' ' ∉ w)
    (l : List Char) : tokensOfChars (w ++ ' ' :: l) = w :: tokensOfChars l := by
  have h0 := splitSpChars_space l
  have h1 := splitSpChars_append_nospace w hsp h0
  simp [tokensOfChars, h1, hw]

theorem tokensOfChars_single (w : List Char) (hw : w ≠ []) (hsp : ' ' ∉ w) :
    tokensOfChars w = [w] := by
  have h0 : splitSpChars ([] : List Char) = [] :: [] := rfl
  have h1 := splitSpChars_append_nospace w hsp h0
  simp only [List.append_nil] at h1
  simp [tokensOfChars, h1, hw]

/-- Tokens of `' '.join xs` followed by a space and a remainder: the
joined elements, in order, then the remainder's tokens. -/
theorem tokens_joinSp_append :
    ∀ (xs : List String), (∀ x ∈ xs, x.data ≠ [] ∧ ' ' ∉ x.data) →
      ∀ (l : List Char),
        tokensOfChars ((joinSp xs).data ++ ' ' :: l) =
          xs.map String.data ++ tokensOfChars l := by
  intro xs
  induction xs with
  | nil => intro _ l; simpa [joinSp] using tokensOfChars_space l
  | cons x xs ih =>
    intro hx l
    have hx1 := hx x (List.mem_cons_self x xs)
    cases xs with
    | nil =>
      simpa [joinSp] using tokensOfChars_token_space x.data hx1.1 hx1.2 l
    | cons y ys =>
      have htail2 : ∀ z ∈ y :: ys, z.data ≠ [] ∧ ' ' ∉ z.data := by
        intro z hz; exact hx z (List.mem_cons_of_mem x hz)
      have hdata : (joinSp (x :: y :: ys)).data ++ ' ' :: l =
          x.data ++ ' ' :: ((joinSp (y :: ys)).data ++ ' ' :: l) := by
        show ((x ++ " " ++ joinSp (y :: ys)).data ++ ' ' :: l = _)
        simp [List.append_assoc]
      rw [hdata, tokensOfChars_token_space x.data hx1.1 hx1.2, ih htail2]
      simp

/-- Tokens of a bare `' '.join xs`. -/
theorem tokens_joinSp :
    ∀ (xs : List String), (∀ x ∈ xs, x.data ≠ [] ∧ ' ' ∉ x.data) →
      tokensOfChars (joinSp xs).data = xs.map String.data := by
  intro xs
  induction xs with
  | nil => intro _; rfl
  | cons x xs ih =>
    intro hx
    have hx1 := hx x (List.mem_cons_self x xs)
    cases xs with
    | nil => simpa [joinSp] using tokensOfChars_single x.data hx1.1 hx1.2
    | cons y ys =>
      have htail : ∀ z ∈ y :: ys, z.data ≠ [] ∧ ' ' ∉ z.data := by
        intro z hz; exact hx z (List.mem_cons_of_mem x hz)
      have hdata : (joinSp (x :: y :: ys)).data =
          x.data ++ ' ' :: (joinSp (y :: ys)).data := by
        show (x ++ " " ++ joinSp (y :: ys)).data = _
        simp [List.append_assoc]
      rw [hdata, tokensOfChars_token_space x.data hx1.1 hx1.2, ih htail]
      simp

theorem mk_data (s : String) : String.mk s.data = s := rfl

/-- A flag built by prefixing a marker to a space-free payload is a
nonempty space-free token. -/
theorem tok_of_append (pre : String) (hpre : pre.data ≠ [] ∧ ' ' ∉ pre.data)
    (p : String) (hp : ' ' ∉ p.data) :
    (pre ++ p).data ≠ [] ∧ ' ' ∉ (pre ++ p).data := by
  have hd : (pre ++ p).data = pre.data ++ p.data := rfl
  constructor
  · rw [hd]
    intro h
    exact hpre.1 (List.append_eq_nil.1 h).1
  · rw [hd]
    intro hmem
    rcases List.mem_append.1 hmem with h | h
    · exact hpre.2 h
    · exact hp h

/-- Whitespace tokens of the rendered `Cflags:` line: the field name,
then the raw compiler flags in input order, then the include search
paths each prefixed with `-I` in input order, then the deferred
`-I$\x7bincludedir\x7d` entry. -/
theorem tokensOf_cflagsLine (v : EnvVals)
    (hcc : ∀ f ∈ v.CCFLAGS, f.data ≠ [] ∧ ' ' ∉ f.data)
    (hcpp : ∀ p ∈ v.CPPPATH, ' ' ∉ p.data) :
    tokensOf (cflagsLine v) =
      "Cflags:" :: (v.CCFLAGS ++ (v.CPPPATH.map (fun p => "-I" ++ p) ++
        ["-I${includedir}"])) := by
  have hI : ∀ x ∈ v.CPPPATH.map (fun p => "-I" ++ p), x.data ≠ [] ∧ ' ' ∉ x.data := by
    intro x hx
    rcases List.mem_map.1 hx with ⟨p, hp, rfl⟩
    exact tok_of_append "-I" (by decide) p (hcpp p hp)
  have hdata : (cflagsLine v).data =
      "Cflags:".data ++ ' ' :: ((joinSp v.CCFLAGS).data ++ ' ' ::
        ((joinSp (v.CPPPATH.map (fun p => "-I" ++ p))).data ++ ' ' ::
          "-I${includedir}".data)) := rfl
  rw [tokensOf, hdata,
    tokensOfChars_token_space "Cflags:".data (by decide) (by decide),
    tokens_joinSp_append v.CCFLAGS hcc,
    tokens_joinSp_append _ hI,
    tokensOfChars_single "-I${includedir}".data (by decide) (by decide)]
  simp [List.map_map, Function.comp_def, mk_data]
  exact fun a _ => rfl

/-- Whitespace tokens of the rendered `Libs:` line: the field name, the
raw linker flags in input order, the library search paths each prefixed
with `-L` in input order, the deferred `-L$\x7blibdir\x7d` entry, the linked
library names each prefixed with `-l` in input order, and the library's
own `-l` entry last. -/
theorem tokensOf_libsLine (v : EnvVals) (n : String)
    (hlf : ∀ f ∈ v.LINKFLAGS, f.data ≠ [] ∧ ' ' ∉ f.data)
    (hlp : ∀ p ∈ v.LIBPATH, ' ' ∉ p.data)
    (hlb : ∀ s ∈ v.LIBS, ' ' ∉ s.data)
    (hn : ' ' ∉ n.data) :
    tokensOf (libsLine v n) =
      "Libs:" :: (v.LINKFLAGS ++ (v.LIBPATH.map (fun p => "-L" ++ p) ++
        ("-L${libdir}" :: (v.LIBS.map (fun s => "-l" ++ s) ++ ["-l" ++ n])))) := by
  have hL : ∀ x ∈ v.LIBPATH.map (fun p => "-L" ++ p), x.data ≠ [] ∧ ' ' ∉ x.data := by
    intro x hx
    rcases List.mem_map.1 hx with ⟨p, hp, rfl⟩
    exact tok_of_append "-L" (by decide) p (hlp p hp)
  have hl : ∀ x ∈ v.LIBS.map (fun s => "-l" ++ s) ++ ["-l" ++ n],
      x.data ≠ [] ∧ ' ' ∉ x.data := by
    intro x hx
    rcases List.mem_append.1 hx with h | h
    · rcases List.mem_map.1 h with ⟨s, hs, rfl⟩
      exact tok_of_append "-l" (by decide) s (hlb s hs)
    · rcases List.mem_singleton.1 h with rfl
      exact tok_of_append "-l" (by decide) n hn
  have hdata : (libsLine v n).data =
      "Libs:".data ++ ' ' :: ((joinSp v.LINKFLAGS).data ++ ' ' ::
        ((joinSp (v.LIBPATH.map (fun p => "-L" ++ p))).data ++ ' ' ::
          ("-L${libdir}".data ++ ' ' ::
            (joinSp (v.LIBS.map (fun s => "-l" ++ s) ++ ["-l" ++ n])).data))) := rfl
  rw [tokensOf, hdata,
    tokensOfChars_token_space "Libs:".data (by decide) (by decide),
    tokens_joinSp_append v.LINKFLAGS hlf,
    tokens_joinSp_append _ hL,
    tokensOfChars_token_space "-L${libdir}".data (by decide) (by decide),
    tokens_joinSp _ hl]
  simp [List.map_map, Function.comp_def, mk_data]
  rfl

/-- With a key absent, the call raises the `KeyError` naming the first
absent key, and the file at the output path ends up existing and empty,
whatever it held before. -/
theorem runSave_missing (e : SConsEnv) (n : String) (old : Option String)
    (k : String) (h : firstMissingKey e = some k) :
    runSave e n old = (.error k, some "") := by
  rcases e with ⟨p, lw, cc, cpp, lf, lb, lp⟩
  cases p <;> cases lw <;> cases cc <;> cases cpp <;> cases lf <;> cases lb <;> cases lp <;>
    simp only [firstMissingKey, Option.some.injEq, reduceCtorEq] at h <;>
    (try subst h) <;> rfl

/-! Last-element facts about the rendered `Libs:` line. -/

theorem getLast?_append_right (l₁ l₂ : List α) (h : l₂ ≠ []) :
    (l₁ ++ l₂).getLast? = l₂.getLast? := by
  rw [List.getLast?_append]
  rcases h2 : l₂.getLast? with _ | c
  · have := List.getLast?_isSome.2 h
    rw [h2] at this
    simp at this
  · simp [Option.or_some]

theorem joinSp_cons_ne_nil (x : String) (l : List String) (h : l ≠ []) :
    joinSp (x :: l) = x ++ " " ++ joinSp l := by
  cases l with
  | nil => exact absurd rfl h
  | cons y ys => rfl

/-- Joining `xs ++ [y]` with spaces yields a string ending with `y`. -/
theorem joinSp_concat (xs : List String) (y : String) :
    ∃ p, joinSp (xs ++ [y]) = p ++ y := by
  induction xs with
  | nil => exact ⟨"", rfl⟩
  | cons x xs ih =>
    obtain ⟨p, hp⟩ := ih
    refine ⟨x ++ " " ++ p, ?_⟩
    rw [List.cons_append, joinSp_cons_ne_nil x (xs ++ [y]) (by simp), hp,
      String.append_assoc, String.append_assoc, String.append_assoc]

/-- The last character of the rendered `Libs:` line is the last
character of the library name. -/
theorem libsLine_data_getLast (v : EnvVals) (n : String) (hn : n.data ≠ []) :
    (libsLine v n).data.getLast? = n.data.getLast? := by
  obtain ⟨p, hp⟩ := joinSp_concat (v.LIBS.map (fun s => "-l" ++ s)) ("-l" ++ n)
  have hJ3 : (joinSp (v.LIBS.map (fun s => "-l" ++ s) ++ ["-l" ++ n])).data =
      p.data ++ (['-', 'l'] ++ n.data) := by rw [hp]; rfl
  have hJ3ne : (joinSp (v.LIBS.map (fun s => "-l" ++ s) ++ ["-l" ++ n])).data ≠ [] := by
    rw [hJ3]; simp [hn]
  have hdata : (libsLine v n).data =
      "Libs: ".data ++ ((joinSp v.LINKFLAGS).data ++ (" ".data ++
        ((joinSp (v.LIBPATH.map (fun q => "-L" ++ q))).data ++ (" -L${libdir} ".data ++
          (joinSp (v.LIBS.map (fun s => "-l" ++ s) ++ ["-l" ++ n])).data)))) := rfl
  rw [hdata,
    getLast?_append_right _ _ (by simp [hJ3ne]),
    getLast?_append_right _ _ (by simp [hJ3ne]),
    getLast?_append_right _ _ (by simp [hJ3ne]),
    getLast?_append_right _ _ (by simp [hJ3ne]),
    getLast?_append_right _ _ hJ3ne,
    hJ3, getLast?_append_right _ _ (by simp [hn]),
    getLast?_append_right _ _ hn]

/-- The last whitespace token of the rendered `Libs:` line is the
library's own `-l` entry. -/
theorem libsTokens_getLast (v : EnvVals) (n : String)
    (hlf : ∀ f ∈ v.LINKFLAGS, f.data ≠ [] ∧ ' ' ∉ f.data)
    (hlp : ∀ p ∈ v.LIBPATH, ' ' ∉ p.data)
    (hlb : ∀ s ∈ v.LIBS, ' ' ∉ s.data)
    (hn : ' ' ∉ n.data) :
    (tokensOf (libsLine v n)).getLast? = some ("-l" ++ n) := by
  rw [tokensOf_libsLine v n hlf hlp hlb hn,
    show ("Libs:" :: (v.LINKFLAGS ++ (v.LIBPATH.map (fun p => "-L" ++ p) ++
        ("-L${libdir}" :: (v.LIBS.map (fun s => "-l" ++ s) ++ ["-l" ++ n]))))) =
      ("Libs:" :: (v.LINKFLAGS ++ (v.LIBPATH.map (fun p => "-L" ++ p) ++
        ("-L${libdir}" :: v.LIBS.map (fun s => "-l" ++ s))))) ++ ["-l" ++ n]
      from by simp]
  exact List.getLast?_concat _

/-- In a token list that splits as a head segment free of `-l` tokens
followed by a tail free of `-L` tokens, every `-L` token's index is
smaller than every `-l` token's index. -/
theorem precede_of_split (P Q : List String)
    (hP : ∀ t ∈ P, isLinkTok t = false) (hQ : ∀ t ∈ Q, isPathTok t = false) :
    ∀ i j (hi : i < (P ++ Q).length) (hj : j < (P ++ Q).length),
      isPathTok ((P ++ Q).get ⟨i, hi⟩) = true →
      isLinkTok ((P ++ Q).get ⟨j, hj⟩) = true → i < j := by
  have key : ∀ (m : ℕ) (hm : m < (P ++ Q).length), P.length ≤ m →
      (P ++ Q).get ⟨m, hm⟩ ∈ Q := by
    intro m hm hge
    rw [List.get_eq_getElem, List.getElem_append_right hge]
    exact List.getElem_mem _
  have key2 : ∀ (m : ℕ) (hm : m < (P ++ Q).length), m < P.length →
      (P ++ Q).get ⟨m, hm⟩ ∈ P := by
    intro m hm hlt
    rw [List.get_eq_getElem, List.getElem_append_left hlt]
    exact List.getElem_mem _
  intro i j hi hj hiP hjL
  by_contra hij
  push_neg at hij
  rcases Nat.lt_or_ge i P.length with hiP2 | hiP2
  · have hjP : j < P.length := Nat.lt_of_le_of_lt hij hiP2
    have hf := hP _ (key2 j hj hjP)
    rw [hf] at hjL
    simp at hjL
  · have hf := hQ _ (key i hi hiP2)
    rw [hf] at hiP
    simp at hiP

/-! Claims. -/

/-- C1, counterexample: at the specification's scenario environment the
rendered `exec_prefix=`, `includedir=` and `libdir=` variable assignments
are not the literal lines `exec_prefix=${exec_prefix}`,
`includedir=${includedir}` and `libdir=${libdir}`: the first two are
resolved against the environment's `prefix` entry at generation time and
the third defers through `${exec_prefix}` instead of `${libdir}`. -/
theorem C1_counterexample :
    save_pkg_config_descriptor (toEnv scenarioEnv) "foo" =
      .ok (descriptorText scenarioEnv "foo") ∧
    execPrefixLine scenarioEnv = "exec_prefix=/usr/local" ∧
    execPrefixLine scenarioEnv ≠ "exec_prefix=${exec_prefix}" ∧
    includedirLine scenarioEnv = "includedir=/usr/local/include" ∧
    includedirLine scenarioEnv ≠ "includedir=${includedir}" ∧
    libdirLine = "libdir=${exec_prefix}/lib" ∧
    libdirLine ≠ "libdir=${libdir}" := by
  refine ⟨save_toEnv_eq scenarioEnv "foo", rfl, ?_, rfl, ?_, rfl, ?_⟩ <;> decide

/-- C1, amended: for every environment state and library name, the
`libdir=` assignment is the fixed literal line `libdir=${exec_prefix}/lib`
(its deferred token kept unresolved), the `exec_prefix=` and
`includedir=` assignments are resolved at generation time against the
environment's `prefix` entry, and the deferred tokens `${includedir}`
and `${libdir}` appear literally inside the `Cflags:` and `Libs:`
lines. -/
theorem C1_deferred_tokens_amended (v : EnvVals) (n : String) :
    save_pkg_config_descriptor (toEnv v) n = .ok (descriptorText v n) ∧
    execPrefixLine v = "exec_prefix=" ++ v.pfx ∧
    includedirLine v = "includedir=" ++ (v.pfx ++ "/include") ∧
    libdirLine = "libdir=" ++ ("${exec_prefix}" ++ "/lib") ∧
    (∃ a, cflagsLine v = a ++ "-I${includedir}") ∧
    (∃ b c, libsLine v n = b ++ ("-L${libdir}" ++ c)) := by
  refine ⟨save_toEnv_eq v n, rfl, rfl, rfl,
    ⟨"Cflags: " ++ (joinSp v.CCFLAGS ++ (" " ++
      (joinSp (v.CPPPATH.map (fun p => "-I" ++ p)) ++ " "))), ?_⟩,
    ⟨"Libs: " ++ (joinSp v.LINKFLAGS ++ (" " ++
      (joinSp (v.LIBPATH.map (fun p => "-L" ++ p)) ++ " "))),
     " " ++ joinSp (v.LIBS.map (fun t => "-l" ++ t) ++ ["-l" ++ n]), ?_⟩⟩
  · simp only [cflagsLine, String.append_assoc]
    rfl
  · simp only [libsLine, String.append_assoc]
    rfl

/-- C2, counterexample: with the `LINKFLAGS` key absent, the call raises
the missing-key error, but the file at the output path does not stay as
it was: pre-existing content `previous` is replaced by the empty string,
and when no file existed an (empty) file now exists. -/
theorem C2_counterexample :
    (runSave envMissingLink "foo" (some "previous")).1 = .error "LINKFLAGS" ∧
    (runSave envMissingLink "foo" (some "previous")).2 = some "" ∧
    (runSave envMissingLink "foo" (some "previous")).2 ≠ some "previous" ∧
    (runSave envMissingLink "foo" none).2 ≠ none := by
  refine ⟨rfl, rfl, ?_, ?_⟩ <;> decide

/-- C2, amended: if a required key is absent, the call raises a
`KeyError` naming the first absent key (in the order the keys are read)
and writes none of the descriptor text — but the output file has already
been opened with mode `w`, so afterwards the file exists and is empty:
a pre-existing file is truncated and a fresh empty file is created when
none existed. -/
theorem C2_missing_key_amended (e : SConsEnv) (n : String)
    (old : Option String) (k : String) (h : firstMissingKey e = some k) :
    runSave e n old = (.error k, some "") :=
  runSave_missing e n old k h

theorem C2_missing_key_witness :
    firstMissingKey envMissingLink = some "LINKFLAGS" ∧
    runSave envMissingLink "foo" (some "previous") = (.error "LINKFLAGS", some "") :=
  ⟨rfl, C2_missing_key_amended envMissingLink "foo" (some "previous") "LINKFLAGS" rfl⟩

/-- C3, counterexample: the rendered `prefix=` assignment takes its
value from the environment's `lwpr` entry, not from the supplied install
prefix (`prefix` entry); at an environment where the two differ the line
is `prefix=/opt/lwpr` although the install prefix is `/usr/local`. -/
theorem C3_counterexample :
    save_pkg_config_descriptor (toEnv envB) "foo" = .ok (descriptorText envB "foo") ∧
    envB.pfx = "/usr/local" ∧
    prefixLine envB = "prefix=/opt/lwpr" ∧
    prefixLine envB ≠ "prefix=" ++ envB.pfx := by
  refine ⟨save_toEnv_eq envB "foo", rfl, rfl, ?_⟩
  decide

/-- C3, amended: for every valid environment state the rendered
descriptor contains a `prefix=` assignment whose value is the
environment's `lwpr` entry (the internal package root), copied verbatim
with no trailing-separator mutation; it equals the supplied install
prefix exactly when the `lwpr` and `prefix` entries coincide. -/
theorem C3_prefix_assignment_amended (v : EnvVals) (n : String) :
    save_pkg_config_descriptor (toEnv v) n = .ok (descriptorText v n) ∧
    prefixLine v = "prefix=" ++ v.lwpr :=
  ⟨save_toEnv_eq v n, rfl⟩

/-- C7: the rendered text is a deterministic function of the environment
and library name alone — the resulting file content does not depend on
what was at the output path before, and running the call a second time
over its own output changes nothing. -/
theorem C7_deterministic (e : SConsEnv) (n : String) (old old2 : Option String) :
    (runSave e n old2).2 = (runSave e n old).2 ∧
    runSave e n ((runSave e n old).2) = runSave e n old := by
  cases h : save_pkg_config_descriptor e n <;> simp [runSave, h]

/-- C9: with `--debug` on the command line, `main` computes the local
`libname = "lwpr-debug"`, but the `Extension` it actually produces is
named `lwpr` and links `lwpr` regardless — the `libname` variable is
dead, so the flag does not change the produced library's name. -/
theorem C9_debug_flag_divergence :
    debug_mode ["setup.py", "build_ext", "--debug"] = true ∧
    main_libname ["setup.py", "build_ext", "--debug"] = "lwpr-debug" ∧
    (main_extension ["setup.py", "build_ext", "--debug"]).name = "lwpr" ∧
    (main_extension ["setup.py", "build_ext", "--debug"]).libraries = ["lwpr"] ∧
    main_libname ["setup.py", "build_ext"] = "lwpr" ∧
    main_extension ["setup.py", "build_ext", "--debug"] =
      main_extension ["setup.py", "build_ext"] :=
  ⟨rfl, rfl, rfl, rfl, rfl, rfl⟩

/-- C4: for every environment state and library name (with the flags,
paths and names being space-free tokens), the whitespace tokens of the
rendered `Libs:` line are, in order: the raw link flags, the library
search paths each prefixed with `-L` in input order, the deferred
`-L${libdir}` entry, the linked library names each prefixed with `-l` in
input order, and the library's own `-l` entry, which is the last token
of the line. -/
theorem C4_libs_line_order (v : EnvVals) (n : String)
    (hlf : ∀ f ∈ v.LINKFLAGS, f.data ≠ [] ∧ ' ' ∉ f.data)
    (hlp : ∀ p ∈ v.LIBPATH, ' ' ∉ p.data)
    (hlb : ∀ t ∈ v.LIBS, ' ' ∉ t.data)
    (hn : ' ' ∉ n.data) :
    save_pkg_config_descriptor (toEnv v) n = .ok (descriptorText v n) ∧
    tokensOf (libsLine v n) =
      "Libs:" :: (v.LINKFLAGS ++ (v.LIBPATH.map (fun p => "-L" ++ p) ++
        ("-L${libdir}" :: (v.LIBS.map (fun t => "-l" ++ t) ++ ["-l" ++ n])))) ∧
    (tokensOf (libsLine v n)).getLast? = some ("-l" ++ n) :=
  ⟨save_toEnv_eq v n, tokensOf_libsLine v n hlf hlp hlb hn,
    libsTokens_getLast v n hlf hlp hlb hn⟩

theorem C4_libs_line_order_witness :
    ((∀ f ∈ envB.LINKFLAGS, f.data ≠ [] ∧ ' ' ∉ f.data) ∧
     (∀ p ∈ envB.LIBPATH, ' ' ∉ p.data) ∧
     (∀ t ∈ envB.LIBS, ' ' ∉ t.data) ∧
     ' ' ∉ ("foo" : String).data) ∧
    tokensOf (libsLine envB "foo") =
      ["Libs:", "-pthread", "-L/usr/local/lib", "-L${libdir}", "-lm", "-ldl", "-lfoo"] ∧
    (tokensOf (libsLine envB "foo")).getLast? = some "-lfoo" := by
  refine ⟨⟨by decide, by decide, by decide, by decide⟩, ?_, ?_⟩
  · exact ((C4_libs_line_order envB "foo" (by decide) (by decide) (by decide)
      (by decide)).2.1).trans (by decide)
  · exact ((C4_libs_line_order envB "foo" (by decide) (by decide) (by decide)
      (by decide)).2.2).trans (by decide)

/-- C5, counterexample: at the specification's concrete scenario the
rendered `Libs:` line is not `Libs: -L/usr/local/lib -L${libdir} -lm
-lfoo`: the empty link-flags value leaves a doubled space after the
field name. -/
theorem C5_counterexample :
    libsLine scenarioEnv "foo" = "Libs:  -L/usr/local/lib -L${libdir} -lm -lfoo" ∧
    libsLine scenarioEnv "foo" ≠ "Libs: -L/usr/local/lib -L${libdir} -lm -lfoo" := by
  refine ⟨rfl, ?_⟩
  decide

/-- C5, amended: for every environment state (with flags and paths
space-free tokens) the whitespace tokens of the rendered `Cflags:` line
are the raw compile flags, the include search paths prefixed with `-I`
in input order, and a final `-I${includedir}`; at the concrete scenario
the `Cflags:` line is exactly `Cflags: -O2 -I/usr/local/include
-I${includedir}` and the `Libs:` line carries exactly the tokens
`-L/usr/local/lib -L${libdir} -lm -lfoo` in that order, but rendered
with a doubled space after `Libs:` because the link-flags value is
empty. -/
theorem C5_cflags_line_amended (v : EnvVals)
    (hcc : ∀ f ∈ v.CCFLAGS, f.data ≠ [] ∧ ' ' ∉ f.data)
    (hcpp : ∀ p ∈ v.CPPPATH, ' ' ∉ p.data) :
    tokensOf (cflagsLine v) =
      "Cflags:" :: (v.CCFLAGS ++ (v.CPPPATH.map (fun p => "-I" ++ p) ++
        ["-I${includedir}"])) ∧
    save_pkg_config_descriptor (toEnv scenarioEnv) "foo" =
      .ok (descriptorText scenarioEnv "foo") ∧
    cflagsLine scenarioEnv = "Cflags: -O2 -I/usr/local/include -I${includedir}" ∧
    libsLine scenarioEnv "foo" = "Libs:  -L/usr/local/lib -L${libdir} -lm -lfoo" ∧
    tokensOf (libsLine scenarioEnv "foo") =
      ["Libs:", "-L/usr/local/lib", "-L${libdir}", "-lm", "-lfoo"] :=
  ⟨tokensOf_cflagsLine v hcc hcpp, save_toEnv_eq scenarioEnv "foo", rfl, rfl, by decide⟩

theorem C5_cflags_line_witness :
    ((∀ f ∈ scenarioEnv.CCFLAGS, f.data ≠ [] ∧ ' ' ∉ f.data) ∧
     (∀ p ∈ scenarioEnv.CPPPATH, ' ' ∉ p.data)) ∧
    tokensOf (cflagsLine scenarioEnv) =
      ["Cflags:", "-O2", "-I/usr/local/include", "-I${includedir}"] := by
  refine ⟨⟨by decide, by decide⟩, ?_⟩
  exact ((C5_cflags_line_amended scenarioEnv (by decide) (by decide)).1).trans (by decide)

/-- C6, counterexample: in the rendered `Libs:` line the `-l` entries do
not come first: the `-L` flags precede them, as the token sequence at
the scenario input shows. -/
theorem C6_counterexample :
    tokensOf (libsLine scenarioEnv "foo") =
      ["Libs:", "-L/usr/local/lib", "-L${libdir}", "-lm", "-lfoo"] ∧
    tokensOf (libsLine scenarioEnv "foo") ≠
      ["Libs:", "-lm", "-L/usr/local/lib", "-lfoo"] := by
  refine ⟨by decide, by decide⟩

/-- C6, amended: in the rendered `Libs:` line the `-l` entries follow
(rather than precede) the `-L` flags: the token list splits as a head
segment holding the field name, the raw link flags and every `-L` flag
(the search-path flags and `-L${libdir}`), followed by a tail of exactly
the `-l` entries, so every `-L` token's index is smaller than every `-l`
token's index.  Among themselves the `-l` entries match the input order
of the linked-library names, and the library's own name is the final
`-l` entry and the last token of the line. -/
theorem C6_libs_name_order_amended (v : EnvVals) (n : String)
    (hlf : ∀ f ∈ v.LINKFLAGS, f.data ≠ [] ∧ ' ' ∉ f.data)
    (hlf2 : ∀ f ∈ v.LINKFLAGS, isLinkTok f = false)
    (hlp : ∀ p ∈ v.LIBPATH, ' ' ∉ p.data)
    (hlb : ∀ t ∈ v.LIBS, ' ' ∉ t.data)
    (hn : ' ' ∉ n.data) :
    tokensOf (libsLine v n) =
      ("Libs:" :: (v.LINKFLAGS ++ (v.LIBPATH.map (fun p => "-L" ++ p) ++
        ["-L${libdir}"]))) ++ (v.LIBS.map (fun t => "-l" ++ t) ++ ["-l" ++ n]) ∧
    (∀ t ∈ "Libs:" :: (v.LINKFLAGS ++ (v.LIBPATH.map (fun p => "-L" ++ p) ++
        ["-L${libdir}"])), isLinkTok t = false) ∧
    (∀ i j (hi : i < (tokensOf (libsLine v n)).length)
       (hj : j < (tokensOf (libsLine v n)).length),
      isPathTok ((tokensOf (libsLine v n)).get ⟨i, hi⟩) = true →
      isLinkTok ((tokensOf (libsLine v n)).get ⟨j, hj⟩) = true → i < j) ∧
    (tokensOf (libsLine v n)).filter isLinkTok =
      v.LIBS.map (fun t => "-l" ++ t) ++ ["-l" ++ n] ∧
    (tokensOf (libsLine v n)).getLast? = some ("-l" ++ n) := by
  have htok := tokensOf_libsLine v n hlf hlp hlb hn
  have hA : tokensOf (libsLine v n) =
      ("Libs:" :: (v.LINKFLAGS ++ (v.LIBPATH.map (fun p => "-L" ++ p) ++
        ["-L${libdir}"]))) ++ (v.LIBS.map (fun t => "-l" ++ t) ++ ["-l" ++ n]) := by
    rw [htok]; simp
  have hB : ∀ t ∈ "Libs:" :: (v.LINKFLAGS ++ (v.LIBPATH.map (fun p => "-L" ++ p) ++
      ["-L${libdir}"])), isLinkTok t = false := by
    intro t ht
    rcases List.mem_cons.1 ht with rfl | ht
    · rfl
    rcases List.mem_append.1 ht with ht | ht
    · exact hlf2 t ht
    rcases List.mem_append.1 ht with ht | ht
    · rcases List.mem_map.1 ht with ⟨p, _, rfl⟩
      rfl
    · rcases List.mem_singleton.1 ht with rfl
      rfl
  have hQ : ∀ t ∈ v.LIBS.map (fun t => "-l" ++ t) ++ ["-l" ++ n],
      isPathTok t = false := by
    intro t ht
    rcases List.mem_append.1 ht with ht | ht
    · rcases List.mem_map.1 ht with ⟨x, _, rfl⟩
      rfl
    · rcases List.mem_singleton.1 ht with rfl
      rfl
  refine ⟨hA, hB, ?_, ?_, libsTokens_getLast v n hlf hlp hlb hn⟩
  · rw [hA]
    exact precede_of_split _ _ hB hQ
  · rw [htok]
    have h1 : v.LINKFLAGS.filter isLinkTok = [] :=
      List.filter_eq_nil_iff.2 (fun a ha => by simp [hlf2 a ha])
    have h2 : (v.LIBPATH.map (fun p => "-L" ++ p)).filter isLinkTok = [] := by
      refine List.filter_eq_nil_iff.2 ?_
      rintro a ha
      rcases List.mem_map.1 ha with ⟨p, _, rfl⟩
      simp [show isLinkTok ("-L" ++ p) = false from rfl]
    have h3 : (v.LIBS.map (fun t => "-l" ++ t)).filter isLinkTok =
        v.LIBS.map (fun t => "-l" ++ t) := by
      refine List.filter_eq_self.2 ?_
      rintro a ha
      rcases List.mem_map.1 ha with ⟨t, _, rfl⟩
      rfl
    simp [List.filter_append, h1, h2, h3,
      show isLinkTok "Libs:" = false from rfl,
      show isLinkTok "-L${libdir}" = false from rfl,
      show isLinkTok ("-l" ++ n) = true from rfl]

theorem C6_libs_name_order_witness :
    ((∀ f ∈ envB.LINKFLAGS, f.data ≠ [] ∧ ' ' ∉ f.data) ∧
     (∀ f ∈ envB.LINKFLAGS, isLinkTok f = false) ∧
     (∀ p ∈ envB.LIBPATH, ' ' ∉ p.data) ∧
     (∀ t ∈ envB.LIBS, ' ' ∉ t.data) ∧
     ' ' ∉ ("foo" : String).data) ∧
    tokensOf (libsLine envB "foo") =
      ["Libs:", "-pthread", "-L/usr/local/lib", "-L${libdir}"] ++
        ["-lm", "-ldl", "-lfoo"] ∧
    (tokensOf (libsLine envB "foo")).filter isLinkTok = ["-lm", "-ldl", "-lfoo"] := by
  refine ⟨⟨by decide, by decide, by decide, by decide, by decide⟩, ?_, ?_⟩
  · exact ((C6_libs_name_order_amended envB "foo" (by decide) (by decide) (by decide)
      (by decide) (by decide)).1).trans (by decide)
  · exact ((C6_libs_name_order_amended envB "foo" (by decide) (by decide) (by decide)
      (by decide) (by decide)).2.2.2.1).trans (by decide)

/-- C8: when all seven environment keys are present, the substitution
mapping binds every placeholder occurring in the fixed template
skeleton, so `Template.substitute` cannot fail and rendering always
succeeds. -/
theorem C8_all_placeholders_bound (e : SConsEnv) (n : String) (h : hasAllKeys e) :
    ∃ m, buildMapping e n = .ok m ∧
      (∀ k ∈ placeholdersOf pc_template, (m.lookup k).isSome = true) ∧
      ∃ t, substitute m pc_template = .ok t ∧
        save_pkg_config_descriptor e n = .ok t := by
  rcases e with ⟨op, olw, occ, ocpp, olf, olb, olp⟩
  obtain ⟨p, rfl⟩ := Option.isSome_iff_exists.1 h.1
  obtain ⟨lw, rfl⟩ := Option.isSome_iff_exists.1 h.2.1
  obtain ⟨cc, rfl⟩ := Option.isSome_iff_exists.1 h.2.2.1
  obtain ⟨cpp, rfl⟩ := Option.isSome_iff_exists.1 h.2.2.2.1
  obtain ⟨lf, rfl⟩ := Option.isSome_iff_exists.1 h.2.2.2.2.1
  obtain ⟨lb, rfl⟩ := Option.isSome_iff_exists.1 h.2.2.2.2.2.1
  obtain ⟨lp, rfl⟩ := Option.isSome_iff_exists.1 h.2.2.2.2.2.2
  refine ⟨_, rfl, ?_, _, rfl, rfl⟩
  intro k hk
  simp only [placeholdersOf, pc_template, List.filterMap_cons, List.filterMap_nil,
    List.mem_cons, List.not_mem_nil, or_false] at hk
  rcases hk with rfl | rfl | rfl | rfl | rfl | rfl | rfl | rfl | rfl | rfl | rfl | rfl <;> rfl

theorem C8_all_placeholders_bound_witness :
    hasAllKeys (toEnv scenarioEnv) ∧
    ∃ m, buildMapping (toEnv scenarioEnv) "foo" = .ok m ∧
      (∀ k ∈ placeholdersOf pc_template, (m.lookup k).isSome = true) ∧
      ∃ t, substitute m pc_template = .ok t ∧
        save_pkg_config_descriptor (toEnv scenarioEnv) "foo" = .ok t :=
  ⟨by decide, C8_all_placeholders_bound (toEnv scenarioEnv) "foo" (by decide)⟩

/-- C10: for every complete environment and well-formed library name the
rendered text begins with a line break (a blank first line before the
`prefix=` assignment) and ends with a single trailing line break right
after the `Libs:` line: the character before the final line break is the
library name's last character, not another line break. -/
theorem C10_newline_framing (v : EnvVals) (n : String)
    (hne : n ≠ "") (hnl : Char.ofNat 10 ∉ n.data) :
    save_pkg_config_descriptor (toEnv v) n = .ok (descriptorText v n) ∧
    (descriptorText v n).data.head? = some (Char.ofNat 10) ∧
    ∃ body, descriptorText v n = "\n" ++ (prefixLine v ++ ("\n" ++ (body ++ "\n"))) ∧
      ∃ c, body.data.getLast? = some c ∧ c ≠ Char.ofNat 10 := by
  have hdn : n.data ≠ [] := fun h0 => hne (String.ext h0)
  refine ⟨save_toEnv_eq v n, rfl, ?_⟩
  refine ⟨execPrefixLine v ++ ("\n" ++ (includedirLine v ++ ("\n" ++ (libdirLine ++
    ("\n\n" ++ (nameLine n ++ ("\n" ++ (descriptionLine ++ ("\n" ++ (versionLine ++
      ("\n" ++ (cflagsLine v ++ ("\n" ++ libsLine v n))))))))))))), ?_, ?_⟩
  · simp only [descriptorText, String.append_assoc]
  · have hlibs_ne : (libsLine v n).data ≠ [] := by
      intro h0
      have h1 := libsLine_data_getLast v n hdn
      rw [h0] at h1
      have h2 := List.getLast?_isSome.2 hdn
      rw [← h1] at h2
      simp at h2
    have hbody : (execPrefixLine v ++ ("\n" ++ (includedirLine v ++ ("\n" ++ (libdirLine ++
        ("\n\n" ++ (nameLine n ++ ("\n" ++ (descriptionLine ++ ("\n" ++ (versionLine ++
          ("\n" ++ (cflagsLine v ++ ("\n" ++ libsLine v n)))))))))))))).data =
        (execPrefixLine v).data ++ ("\n".data ++ ((includedirLine v).data ++ ("\n".data ++
          (libdirLine.data ++ ("\n\n".data ++ ((nameLine n).data ++ ("\n".data ++
            (descriptionLine.data ++ ("\n".data ++ (versionLine.data ++ ("\n".data ++
              ((cflagsLine v).data ++ ("\n".data ++ (libsLine v n).data))))))))))))) := rfl
    rw [hbody,
      getLast?_append_right _ _ (by simp [hlibs_ne]),
      getLast?_append_right _ _ (by simp [hlibs_ne]),
      getLast?_append_right _ _ (by simp [hlibs_ne]),
      getLast?_append_right _ _ (by simp [hlibs_ne]),
      getLast?_append_right _ _ (by simp [hlibs_ne]),
      getLast?_append_right _ _ (by simp [hlibs_ne]),
      getLast?_append_right _ _ (by simp [hlibs_ne]),
      getLast?_append_right _ _ (by simp [hlibs_ne]),
      getLast?_append_right _ _ (by simp [hlibs_ne]),
      getLast?_append_right _ _ (by simp [hlibs_ne]),
      getLast?_append_right _ _ (by simp [hlibs_ne]),
      getLast?_append_right _ _ (by simp [hlibs_ne]),
      getLast?_append_right _ _ (by simp [hlibs_ne]),
      getLast?_append_right _ _ hlibs_ne,
      libsLine_data_getLast v n hdn]
    obtain ⟨c, hc⟩ := Option.isSome_iff_exists.1 (List.getLast?_isSome.2 hdn)
    refine ⟨c, hc, fun h0 => hnl ?_⟩
    rw [← h0]
    exact List.mem_of_getLast?_eq_some hc

theorem C10_newline_framing_witness :
    (("foo" : String) ≠ "" ∧ Char.ofNat 10 ∉ ("foo" : String).data) ∧
    (descriptorText scenarioEnv "foo").data.head? = some (Char.ofNat 10) :=
  ⟨⟨by decide, by decide⟩,
    (C10_newline_framing scenarioEnv "foo" (by decide) (by decide)).2.1⟩

end LwprLite
